import Mathlib

/-!
# Verification of `halo2-simple-examples`

A shallow embedding of the two example circuits of the repository
(`src/fibonacci.rs` and `src/rangecheck.rs`) together with a model of the
minimal PLONK-style arithmetization engine they run on (regions, a simple
sequential layouter, copy constraints, and the mock satisfiability checker).
The engine itself lives in the `halo2_proofs` dependency, not in this
repository's sources, so those parts are modelled from the specification;
the circuit-level definitions are translated directly from the two Rust
source files.
-/

namespace Halo2

/-- Symbolic gate polynomial over a field `F`: the `Expression` variant of the
constraint language (constants, selector queries, advice queries at a relative
rotation, sums, products, negation). Translated from the spec's data model and
the `Expression` values built in the source's `create_gate` closures. -/
inductive Expression (F : Type) where
  | Constant : F → Expression F
  | Selector : Nat → Expression F
  | Advice : Nat → Int → Expression F
  | Sum : Expression F → Expression F → Expression F
  | Product : Expression F → Expression F → Expression F
  | Negate : Expression F → Expression F

/-- Evaluate an expression at an absolute `row`, resolving selector queries via
`sel` (boolean activation per selector index and row) and advice queries via
`adv` (value per column index and row; unassigned cells read as `0`).
A rotation `r` reads the column at `row + r`. -/
def evalExpr {F : Type} [CommRing F] (sel : Nat → Nat → Bool)
    (adv : Nat → Nat → Option F) (row : Nat) : Expression F → F
  | .Constant c => c
  | .Selector i => if sel i row then 1 else 0
  | .Advice c r => (adv c (Int.toNat ((row : Int) + r))).getD 0
  | .Sum a b => evalExpr sel adv row a + evalExpr sel adv row b
  | .Product a b => evalExpr sel adv row a * evalExpr sel adv row b
  | .Negate a => - evalExpr sel adv row a

/-- The advice-column queries `(column, rotation)` occurring in an expression,
in query order. -/
def Expression.advQueries {F : Type} : Expression F → List (Nat × Int)
  | .Advice c r => [(c, r)]
  | .Sum a b => a.advQueries ++ b.advQueries
  | .Product a b => a.advQueries ++ b.advQueries
  | .Negate a => a.advQueries
  | _ => []

/-- A named gate: a list of named polynomial constraints (each already gated by
its selector factor, as the source's `create_gate` stores them). -/
structure Gate (F : Type) where
  name : String
  polys : List (String × Expression F)

/-- Errors surfaced during region assignment. `Synthesis` is the
missing-witness condition the source raises via `Error::Synthesis`;
`AssignmentConflict` is the spec's error for re-assigning a cell with a
differing value. -/
inductive Err where
  | Synthesis
  | AssignmentConflict
deriving DecidableEq

/-- Modelled from the spec: the table state threaded through synthesis — the
next free absolute row of the sequential ("simple") layouter, the assigned
advice cells `((column, row), value)`, the enabled selector bits
`(selector, row)`, and the registered copy-constraint pairs of cells. -/
structure SynthState (F : Type) where
  nextRow : Nat
  advice : List ((Nat × Nat) × F)
  selectors : List (Nat × Nat)
  copies : List ((Nat × Nat) × (Nat × Nat))
deriving DecidableEq

/-- The empty table: no rows used, nothing assigned. -/
def initState (F : Type) : SynthState F :=
  { nextRow := 0, advice := [], selectors := [], copies := [] }

/-- Look up the value assigned to `(column c, row r)`, if any. -/
def SynthState.adv {F : Type} (s : SynthState F) (c r : Nat) : Option F :=
  (s.advice.find? (fun p => decide (p.1 = (c, r)))).map (fun p => p.2)

/-- Whether selector `i` is enabled at row `r`. -/
def SynthState.selOn {F : Type} (s : SynthState F) (i r : Nat) : Bool :=
  decide ((i, r) ∈ s.selectors)

/-- Record the value `v` at `(column c, row r)`. -/
def SynthState.setAdvice {F : Type} (s : SynthState F) (c r : Nat) (v : F) :
    SynthState F :=
  { s with advice := ((c, r), v) :: s.advice }

/-- Enable selector `i` at row `r`. -/
def SynthState.enableSelector {F : Type} (s : SynthState F) (i r : Nat) :
    SynthState F :=
  { s with selectors := (i, r) :: s.selectors }

/-- A cell handle returned by an assignment: its `(column, row)` address and
the value it was assigned (the source's `ACell` wrapping `AssignedCell`). -/
structure ACell (F : Type) where
  cell : Nat × Nat
  val : F
deriving DecidableEq

/-- Modelled from the spec: assign a value into a cell. An absent (unknown)
value is the missing-witness condition and aborts the region with
`Err.Synthesis`; re-assigning an already-assigned cell with a different value
is an `Err.AssignmentConflict`; otherwise the cell is recorded (assign-once)
and a handle to it is returned. -/
def SynthState.assignAdvice {F : Type} [DecidableEq F] (s : SynthState F)
    (c r : Nat) (v : Option F) : Except Err (ACell F × SynthState F) :=
  match v with
  | none => .error .Synthesis
  | some w =>
    match s.adv c r with
    | some old =>
      if old = w then .ok (⟨(c, r), w⟩, s) else .error .AssignmentConflict
    | none => .ok (⟨(c, r), w⟩, s.setAdvice c r w)

/-- Modelled from the spec: `copy_advice` — assign the source cell's value at
`(column c, row r)` and register an equality (copy) link between the source
cell and the newly assigned cell. -/
def SynthState.copyAdvice {F : Type} [DecidableEq F] (s : SynthState F)
    (src : ACell F) (c r : Nat) : Except Err (ACell F × SynthState F) :=
  match s.assignAdvice c r (some src.val) with
  | .error e => .error e
  | .ok (cell, s') => .ok (cell, { s' with copies := (src.cell, (c, r)) :: s'.copies })

/-- Decidable equality for `Except`, so that concrete synthesis results can be
compared by evaluation. -/
instance instDecEqExcept {ε α : Type} [DecidableEq ε] [DecidableEq α] :
    DecidableEq (Except ε α) := fun x y =>
  match x, y with
  | .error a, .error b =>
    if h : a = b then .isTrue (congrArg Except.error h)
    else .isFalse (fun hc => h (Except.error.inj hc))
  | .ok a, .ok b =>
    if h : a = b then .isTrue (congrArg Except.ok h)
    else .isFalse (fun hc => h (Except.ok.inj hc))
  | .error _, .ok _ => .isFalse (fun hc => Except.noConfusion hc)
  | .ok _, .error _ => .isFalse (fun hc => Except.noConfusion hc)

/-- Satisfiability violations, as reported by the mock checker. Modelled from
the spec's taxonomy: `ConstraintNotSatisfied` carries the gate name, the
constraint name, the failing row and the queried advice cells with their
values; `EqualityViolation` is an unequal copy-constrained pair;
`MissingEquality` is an unassigned cell inside a copy-constrained class. -/
inductive Violation (F : Type) where
  | ConstraintNotSatisfied (gateName : String) (constraintName : String)
      (row : Nat) (cellValues : List ((Nat × Nat) × F))
  | EqualityViolation (a b : Nat × Nat)
  | MissingEquality (cell : Nat × Nat)
deriving DecidableEq

/-- Modelled from the spec: evaluate one named constraint of a gate at a row;
a non-zero value yields a `ConstraintNotSatisfied` violation carrying the
(deduplicated) advice cells the constraint queries together with their
assigned values. -/
def polyViolation {F : Type} [CommRing F] [DecidableEq F] (s : SynthState F)
    (gname : String) (row : Nat) (p : String × Expression F) :
    List (Violation F) :=
  if evalExpr s.selOn s.adv row p.2 = 0 then []
  else [.ConstraintNotSatisfied gname p.1 row
         (p.2.advQueries.dedup.map (fun q =>
           ((q.1, Int.toNat ((row : Int) + q.2)),
            (s.adv q.1 (Int.toNat ((row : Int) + q.2))).getD 0)))]

/-- Modelled from the spec: evaluate every gate constraint at every row of the
table, collecting all `ConstraintNotSatisfied` violations. -/
def gateViolations {F : Type} [CommRing F] [DecidableEq F]
    (gates : List (Gate F)) (height : Nat) (s : SynthState F) :
    List (Violation F) :=
  (List.range height).foldr (fun row acc =>
    gates.foldr (fun g acc2 =>
      g.polys.foldr (fun p acc3 => polyViolation s g.name row p ++ acc3) acc2)
      acc) []

/-- Modelled from the spec: check the registered copy constraints — each
linked pair of cells must be assigned and hold equal values. -/
def copyViolations {F : Type} [DecidableEq F] (adv : Nat → Nat → Option F) :
    List ((Nat × Nat) × (Nat × Nat)) → List (Violation F)
  | [] => []
  | pr :: rest =>
    (match adv pr.1.1 pr.1.2, adv pr.2.1 pr.2.2 with
     | some a, some b =>
       if a = b then [] else [.EqualityViolation pr.1 pr.2]
     | none, _ => [.MissingEquality pr.1]
     | some _, none => [.MissingEquality pr.2]) ++ copyViolations adv rest

/-- Modelled from the spec: the satisfiability checker — all gate violations
over every row of the table, followed by all copy-constraint violations.
The assignment is satisfied exactly when the returned list is empty. -/
def check {F : Type} [CommRing F] [DecidableEq F] (gates : List (Gate F))
    (height : Nat) (s : SynthState F) : List (Violation F) :=
  gateViolations gates height s ++ copyViolations s.adv s.copies

/-! ## The Fibonacci circuit (`src/fibonacci.rs`) -/

/-- The configuration built by `FiboChip::configure`: three advice columns,
one selector, and all three advice columns enabled for equality. -/
structure FiboConfig where
  advice : List Nat
  selector : Nat
  eqEnabled : List Nat
deriving DecidableEq

/-- `FiboChip::configure` allocates advice columns 0, 1, 2 and selector 0 and
equality-enables all three advice columns. -/
def fibConfigure : FiboConfig :=
  { advice := [0, 1, 2], selector := 0, eqEnabled := [0, 1, 2] }

/-- The single constraint of the "add" gate: `s * (a + b - c)` with the three
advice columns queried at the current row (`fibonacci.rs` lines 39–50). -/
def fibPoly (F : Type) : Expression F :=
  .Product (.Selector 0)
    (.Sum (.Sum (.Advice 0 0) (.Advice 1 0)) (.Negate (.Advice 2 0)))

/-- The "add" gate created by `FiboChip::configure`; the source passes the
single constraint unnamed, so its constraint name is the empty string. -/
def fibGate (F : Type) : Gate F :=
  { name := "add", polys := [("", fibPoly F)] }

/-- `FiboChip::assign_first_row`: open a region at the next free row, enable
the selector at its offset 0, fail with `Err.Synthesis` if either witness is
absent, otherwise assign `a`, `b` and `c = a + b` into the three advice
columns of that row and return the three cells. -/
def assign_first_row {F : Type} [CommRing F] [DecidableEq F]
    (a b : Option F) (s : SynthState F) :
    Except Err ((ACell F × ACell F × ACell F) × SynthState F) :=
  let r := s.nextRow
  let s0 := s.enableSelector 0 r
  match a with
  | none => .error .Synthesis
  | some av =>
    match b with
    | none => .error .Synthesis
    | some bv =>
      match s0.assignAdvice 0 r (some av) with
      | .error e => .error e
      | .ok (aCell, s1) =>
        match s1.assignAdvice 1 r (some bv) with
        | .error e => .error e
        | .ok (bCell, s2) =>
          match s2.assignAdvice 2 r (some (av + bv)) with
          | .error e => .error e
          | .ok (cCell, s3) =>
            .ok ((aCell, bCell, cCell), { s3 with nextRow := r + 1 })

/-- `FiboChip::assign_row`: open a region at the next free row, enable the
selector at its offset 0, copy the previous region's `b` and `c` cells into
columns `a` and `b` of the new row (registering the two copy constraints),
assign `c` as their sum, and return the new `c` cell. -/
def assign_row {F : Type} [CommRing F] [DecidableEq F]
    (prev_b prev_c : ACell F) (s : SynthState F) :
    Except Err (ACell F × SynthState F) :=
  let r := s.nextRow
  let s0 := s.enableSelector 0 r
  match s0.copyAdvice prev_b 0 r with
  | .error e => .error e
  | .ok (_, s1) =>
    match s1.copyAdvice prev_c 1 r with
    | .error e => .error e
    | .ok (_, s2) =>
      match s2.assignAdvice 2 r (some (prev_b.val + prev_c.val)) with
      | .error e => .error e
      | .ok (cCell, s3) => .ok (cCell, { s3 with nextRow := r + 1 })

/-- The chained "next row" regions of `MyCircuit::synthesize`: after each
region the previous `b` handle becomes the previous `c` and the new `c`
becomes current, exactly as the source's loop rebinds `prev_b`/`prev_c`. -/
def fibLoop {F : Type} [CommRing F] [DecidableEq F] :
    Nat → ACell F → ACell F → SynthState F →
    Except Err (ACell F × ACell F × SynthState F)
  | 0, pb, pc, s => .ok (pb, pc, s)
  | n + 1, pb, pc, s =>
    match assign_row pb pc s with
    | .error e => .error e
    | .ok (c, s') => fibLoop n pc c s'

/-- `MyCircuit::synthesize`: one first-row region followed by seven chained
"next row" regions (the source's `for _ in 3..10` loop). -/
def fibSynthesize {F : Type} [CommRing F] [DecidableEq F]
    (a b : Option F) : Except Err (SynthState F) :=
  match assign_first_row a b (initState F) with
  | .error e => .error e
  | .ok ((_, pb, pc), s) =>
    match fibLoop 7 pb pc s with
    | .error e => .error e
    | .ok (_, _, s') => .ok s'

/-- The order of the Pallas base field, the modulus of the `pasta` `Fp` used
by both examples' tests. -/
def pPallas : Nat :=
  28948022309329048855892746252171976963363056481941560715954676764349967630337

/-- The `pasta` field `Fp` of the tests, as the integers modulo `pPallas`. -/
abbrev Fp := ZMod pPallas

/-- `fibonacci_simple`: run the Fibonacci circuit with first-row witnesses
`a = 1`, `b = 1` through the mock prover with `2 ^ k` table rows, yielding
the finalized gate list, the table height, and the assignment. -/
def fibonacci_simple (k : Nat) : Except Err (List (Gate Fp) × Nat × SynthState Fp) :=
  match fibSynthesize (F := Fp) (some 1) (some 1) with
  | .error e => .error e
  | .ok s => .ok ([fibGate Fp], 2 ^ k, s)

/-! ## The range-check circuit (`src/rangecheck.rs`) -/

/-- The `range_check` closure of `RangeCheckConfig::configure`
(`rangecheck.rs` lines 27–31): fold over `0..range`, starting from the
`value` expression itself, multiplying in `(Constant i - value)` at each
step (the source's subtraction builds `Sum (Constant i) (Negate value)`). -/
def range_check (F : Type) [CommRing F] (range : Nat) (value : Expression F) :
    Expression F :=
  (List.range range).foldl
    (fun expr i => .Product expr (.Sum (.Constant (i : F)) (.Negate value)))
    value

/-- The single polynomial of the "Range check" gate: the selector times the
`range_check` fold applied with the hard-coded bound `8` to the advice column
`value` queried at the current row (`rangecheck.rs` line 33). -/
def rangeGatePoly (F : Type) [CommRing F] (value : Nat) : Expression F :=
  .Product (.Selector 0) (range_check F 8 (.Advice value 0))

/-- The configuration data of `RangeCheckConfig`: the advice column holding
the value and the toggling selector. -/
structure RangeCheckConfig where
  value : Nat
  q_range_check : Nat
deriving DecidableEq

/-- `RangeCheckConfig::configure` with const parameter `RANGE`: allocates the
selector and creates the "Range check" gate whose sole constraint, named
"range check", is `rangeGatePoly` — built with the literal `8` of the source,
not with `RANGE`. -/
def RangeCheckConfig_configure (F : Type) [CommRing F] (RANGE : Nat)
    (value : Nat) : RangeCheckConfig × Gate F :=
  ({ value := value, q_range_check := 0 },
   { name := "Range check", polys := [("range check", rangeGatePoly F value)] })

/-- `RangeCheckConfig::assign`: open a region at the next free row, enable the
range-check selector at its offset 0, and assign the witness value into the
`value` column of that row. -/
def rangeAssign {F : Type} [CommRing F] [DecidableEq F] (v : Option F)
    (s : SynthState F) : Except Err (SynthState F) :=
  let r := s.nextRow
  let s0 := s.enableSelector 0 r
  match s0.assignAdvice 0 r v with
  | .error e => .error e
  | .ok (_, s1) => .ok { s1 with nextRow := r + 1 }

/-- The test harness of `test_rangecheck` for one witness value: synthesize
the `TestCircuit` (a single "Assign value" region) and run the mock prover
with `2 ^ 4` table rows, yielding the gate list, height and assignment. -/
def rangecheck_run (v : Option Fp) :
    Except Err (List (Gate Fp) × Nat × SynthState Fp) :=
  match rangeAssign v (initState Fp) with
  | .error e => .error e
  | .ok s => .ok ([(RangeCheckConfig_configure Fp 8 0).2], 2 ^ 4, s)

/-- The free function `pub fn rangecheck` of `rangecheck.rs` (lines 56–58):
plain `usize` addition, with the machine-word reduction made explicit. -/
def rangecheck (left right : Nat) : Nat :=
  (left + right) % 2 ^ 64

/-- Modelled from the spec: the product form the spec ascribes to the
range-check gate, `q * Π_{i=0}^{range-1} (i - value)`, as a value-level
function of the selector value `q` and the witness `value`. -/
def specRangeProduct (F : Type) [CommRing F] (range : Nat) (q v : F) : F :=
  q * (List.range range).foldl (fun (acc : F) (i : ℕ) => acc * ((i : F) - v)) 1

/-! ## Helper lemmas -/

/-- With the selector on, the range-check gate polynomial evaluates to the
witness value times the eight factors `(i - value)` for `i = 0, …, 7`. -/
lemma rangeGatePoly_eval (F : Type) [CommRing F] (col : Nat)
    (sel : Nat → Nat → Bool) (adv : Nat → Nat → Option F) (row : Nat)
    (hsel : sel 0 row = true) :
    evalExpr sel adv row (rangeGatePoly F col) =
      (adv col row).getD 0 * (0 - (adv col row).getD 0) *
        (1 - (adv col row).getD 0) * (2 - (adv col row).getD 0) *
        (3 - (adv col row).getD 0) * (4 - (adv col row).getD 0) *
        (5 - (adv col row).getD 0) * (6 - (adv col row).getD 0) *
        (7 - (adv col row).getD 0) := by
  have h8 : List.range 8 = [0, 1, 2, 3, 4, 5, 6, 7] := rfl
  simp only [rangeGatePoly, range_check, h8, List.foldl_cons, List.foldl_nil, evalExpr,
    hsel, if_true, add_zero, Int.toNat_natCast]
  push_cast
  ring

/-- In a field, the product `v * (0 - v) * ⋯ * (7 - v)` vanishes exactly when
`v` is the image of one of the naturals `0, …, 7`. -/
lemma prod8_zero_iff (F : Type) [Field F] (v : F) :
    v * (0 - v) * (1 - v) * (2 - v) * (3 - v) * (4 - v) * (5 - v) * (6 - v) *
      (7 - v) = 0 ↔ ∃ i : ℕ, i < 8 ∧ v = (i : F) := by
  rw [mul_eq_zero, mul_eq_zero, mul_eq_zero, mul_eq_zero, mul_eq_zero, mul_eq_zero,
    mul_eq_zero, mul_eq_zero]
  constructor
  · rintro ((((((((h | h) | h) | h) | h) | h) | h) | h) | h)
    · exact ⟨0, by norm_num, by simpa using h⟩
    · exact ⟨0, by norm_num, by simpa using (sub_eq_zero.mp h).symm⟩
    · exact ⟨1, by norm_num, by exact_mod_cast (sub_eq_zero.mp h).symm⟩
    · exact ⟨2, by norm_num, by exact_mod_cast (sub_eq_zero.mp h).symm⟩
    · exact ⟨3, by norm_num, by exact_mod_cast (sub_eq_zero.mp h).symm⟩
    · exact ⟨4, by norm_num, by exact_mod_cast (sub_eq_zero.mp h).symm⟩
    · exact ⟨5, by norm_num, by exact_mod_cast (sub_eq_zero.mp h).symm⟩
    · exact ⟨6, by norm_num, by exact_mod_cast (sub_eq_zero.mp h).symm⟩
    · exact ⟨7, by norm_num, by exact_mod_cast (sub_eq_zero.mp h).symm⟩
  · rintro ⟨i, hi, rfl⟩
    interval_cases i <;> simp

/-! ## Claim theorems -/

/-- C3: the range-check gate polynomial built with range `8`, gated by the
selector, evaluates to the field zero at a witness value exactly when that
value is one of the field elements `0, …, 7`; at any other field value it is
non-zero. -/
theorem rangeGate_zero_iff_inRange (F : Type) [Field F]
    (sel : Nat → Nat → Bool) (adv : Nat → Nat → Option F) (row : Nat)
    (hsel : sel 0 row = true) :
    evalExpr sel adv row (rangeGatePoly F 0) = 0 ↔
      ∃ i : ℕ, i < 8 ∧ (adv 0 row).getD 0 = (i : F) := by
  rw [rangeGatePoly_eval F 0 sel adv row hsel]
  exact prod8_zero_iff F _

/-- Witness for C3: with the selector on and witness value `3` over `ℚ`, the
equivalence holds at a concrete input. -/
theorem rangeGate_zero_iff_inRange_witness :
    evalExpr (fun _ _ => true) (fun _ _ => some (3 : ℚ)) 0 (rangeGatePoly ℚ 0) = 0 ↔
      ∃ i : ℕ, i < 8 ∧ ((some (3 : ℚ)).getD 0 = (i : ℚ)) :=
  rangeGate_zero_iff_inRange ℚ (fun _ _ => true) (fun _ _ => some 3) 0 rfl

/-- C4 counterexample: the stored gate expression is not the spec's product
form `q * Π_{i=0}^{7} (i - value)` — at `q = 1`, `value = 9` over `ZMod 101`
the two evaluations disagree. -/
theorem rangeGate_not_spec_product :
    ¬ (evalExpr (fun _ _ => true) (fun _ _ => some (9 : ZMod 101)) 0
        (rangeGatePoly (ZMod 101) 0) = specRangeProduct (ZMod 101) 8 1 9) := by
  decide

/-- C4 amended: the expression the range-check gate stores is the product form
`q * value * Π_{i=0}^{range-1} (i - value)`: the fold's initial accumulator is
the `value` expression itself, so an extra `value` factor multiplies the
spec's product. -/
theorem rangeGate_product_form (F : Type) [CommRing F] (col : Nat)
    (sel : Nat → Nat → Bool) (adv : Nat → Nat → Option F) (row : Nat) :
    evalExpr sel adv row (rangeGatePoly F col) =
      (if sel 0 row then (1 : F) else 0) * (adv col row).getD 0 *
        (List.range 8).foldl (fun (acc : F) (i : ℕ) => acc * ((i : F) - (adv col row).getD 0)) 1 := by
  have h8 : List.range 8 = [0, 1, 2, 3, 4, 5, 6, 7] := rfl
  cases hs : sel 0 row with
  | false =>
    simp [rangeGatePoly, evalExpr, hs]
  | true =>
    rw [rangeGatePoly_eval F col sel adv row hs]
    simp only [h8, List.foldl_cons, List.foldl_nil, hs, if_true, Nat.cast_ofNat,
      Nat.cast_zero, Nat.cast_one]
    ring

/-- C9: `RangeCheckConfig::configure` builds the same configuration and gate
for every value of the `RANGE` parameter — the bound is hard-coded to `8` in
the gate body — and the stored constraint checks membership in `{0, …, 7}`
regardless of `RANGE`. -/
theorem rangeConfigure_ignores_RANGE (F : Type) [Field F] :
    (∀ RANGE RANGE' value : Nat,
       RangeCheckConfig_configure F RANGE value =
         RangeCheckConfig_configure F RANGE' value) ∧
    (∀ (RANGE : Nat) (sel : Nat → Nat → Bool) (adv : Nat → Nat → Option F)
       (row : Nat), sel 0 row = true →
       ∀ p ∈ (RangeCheckConfig_configure F RANGE 0).2.polys,
         (evalExpr sel adv row p.2 = 0 ↔
           ∃ i : ℕ, i < 8 ∧ (adv 0 row).getD 0 = (i : F))) := by
  refine ⟨fun _ _ _ => rfl, ?_⟩
  intro RANGE sel adv row hsel p hp
  have hp' : p = ("range check", rangeGatePoly F 0) := by
    simpa [RangeCheckConfig_configure] using hp
  subst hp'
  rw [rangeGatePoly_eval F 0 sel adv row hsel]
  exact prod8_zero_iff F _

/-- Witness for C9: the configurations built with `RANGE = 3` and
`RANGE = 99` coincide, and at witness value `5` over `ℚ` with the selector on
the stored constraint's zero-test agrees with membership in `{0, …, 7}`. -/
theorem rangeConfigure_ignores_RANGE_witness :
    RangeCheckConfig_configure ℚ 3 0 = RangeCheckConfig_configure ℚ 99 0 ∧
    (evalExpr (fun _ _ => true) (fun _ _ => some (5 : ℚ)) 0
        (rangeGatePoly ℚ 0) = 0 ↔
      ∃ i : ℕ, i < 8 ∧ ((some (5 : ℚ)).getD 0 = (i : ℚ))) :=
  ⟨(rangeConfigure_ignores_RANGE ℚ).1 3 99 0,
   (rangeConfigure_ignores_RANGE ℚ).2 3 (fun _ _ => true) (fun _ _ => some 5) 0 rfl
     ("range check", rangeGatePoly ℚ 0) (by simp [RangeCheckConfig_configure])⟩

/-- C5: the sequence-recurrence circuit's single gate "add" is defined over
the three advice columns `a`, `b`, `c` queried at the current row and one
selector, its sole constraint expression is `s * (a + b - c)`, and the
constraint is satisfied at a row exactly when the selector is off or `c`
equals `a + b` in the field. -/
theorem fibGate_spec (F : Type) [Field F]
    (sel : Nat → Nat → Bool) (adv : Nat → Nat → Option F) (row : Nat) :
    fibConfigure.advice = [0, 1, 2] ∧ fibConfigure.selector = 0 ∧
    (fibGate F).name = "add" ∧
    (fibGate F).polys = [("", Expression.Product (.Selector 0)
        (.Sum (.Sum (.Advice 0 0) (.Advice 1 0)) (.Negate (.Advice 2 0))))] ∧
    (evalExpr sel adv row (fibPoly F) = 0 ↔
      sel 0 row = false ∨
        (adv 2 row).getD 0 = (adv 0 row).getD 0 + (adv 1 row).getD 0) := by
  refine ⟨rfl, rfl, rfl, rfl, ?_⟩
  cases hs : sel 0 row with
  | false => simp [evalExpr, fibPoly, hs]
  | true =>
    simp only [evalExpr, fibPoly, hs, if_true, one_mul, add_zero, Int.toNat_natCast,
      Bool.true_eq_false, false_or]
    rw [add_neg_eq_zero]
    exact eq_comm

/-- C8: the satisfiability checker is deterministic — checking the same
finalized gate list against the same table twice yields identical violation
lists (the checker is a pure function of its inputs). -/
theorem check_deterministic (F : Type) [CommRing F] [DecidableEq F]
    (gates : List (Gate F)) (height : Nat) (s : SynthState F) :
    check gates height s = check gates height s := rfl

/-- C10: the public function `rangecheck` performs no range checking — for
every pair of arguments whose sum does not overflow the machine word it just
returns their sum. -/
theorem rangecheck_is_plain_add (left right : Nat) (h : left + right < 2 ^ 64) :
    rangecheck left right = left + right :=
  Nat.mod_eq_of_lt h

/-- Witness for C10 at `left = 2`, `right = 3`. -/
theorem rangecheck_is_plain_add_witness :
    2 + 3 < 2 ^ 64 ∧ rangecheck 2 3 = 2 + 3 :=
  ⟨by norm_num, rangecheck_is_plain_add 2 3 (by norm_num)⟩

/-- C1: running the Fibonacci circuit end-to-end with first-row witnesses
`a = 1`, `b = 1` (one first-row region plus seven chained next-row regions,
so `nextRow = 8`) yields constrained rows carrying the Fibonacci values
`1, 1, 2, 3, 5, 8, 13, 21, 34, 55`, and the satisfiability check over the
`2 ^ 4`-row table returns the empty violation list. -/
theorem fibonacci_simple_end_to_end :
    (fibonacci_simple 4).map (fun x =>
      ((List.range 8).map (fun r => (x.2.2.adv 0 r, x.2.2.adv 1 r, x.2.2.adv 2 r)),
       x.2.2.nextRow, check x.1 x.2.1 x.2.2))
    = .ok ([(some 1, some 1, some 2), (some 1, some 2, some 3),
            (some 2, some 3, some 5), (some 3, some 5, some 8),
            (some 5, some 8, some 13), (some 8, some 13, some 21),
            (some 13, some 21, some 34), (some 21, some 34, some 55)],
           8, []) := by
  decide

/-- C2: for the bounded-value gate with range `8`, every witness value in
`{0, …, 7}` checks with an empty violation list, while value `8` fails with
exactly one `ConstraintNotSatisfied` citing the "range check" constraint of
the "Range check" gate at the assignment's row `0`, the recorded cell value
being the offending input `8`. -/
theorem rangecheck_test_behaviour :
    (∀ i : Fin 8, (rangecheck_run (some ((i : Nat) : Fp))).map
        (fun x => check x.1 x.2.1 x.2.2) = .ok []) ∧
    (rangecheck_run (some 8)).map (fun x => check x.1 x.2.1 x.2.2)
      = .ok [Violation.ConstraintNotSatisfied "Range check" "range check" 0
              [((0, 0), (8 : Fp))]] := by
  decide

/-- `adv` lookups are unaffected by enabling a selector. -/
lemma adv_enableSelector {F : Type} (s : SynthState F) (i r c' r' : Nat) :
    (s.enableSelector i r).adv c' r' = s.adv c' r' := rfl

/-- Lookup after recording a cell: the recorded cell reads back the new value,
every other cell is unchanged. -/
lemma adv_setAdvice {F : Type} (s : SynthState F) (c r c' r' : Nat) (v : F) :
    (s.setAdvice c r v).adv c' r' =
      if (c, r) = (c', r') then some v else s.adv c' r' := by
  by_cases h : (c, r) = (c', r')
  · simp [SynthState.setAdvice, SynthState.adv, List.find?_cons_of_pos, h]
  · simp [SynthState.setAdvice, SynthState.adv, List.find?_cons_of_neg, h]

/-- A successful `assignAdvice` changes neither the copy list, the next free
row, nor the selector bits. -/
lemma assignAdvice_ok_frame {F : Type} [DecidableEq F] {s : SynthState F}
    {c r : Nat} {v : Option F} {cell : ACell F} {s' : SynthState F}
    (h : s.assignAdvice c r v = .ok (cell, s')) :
    s'.copies = s.copies ∧ s'.nextRow = s.nextRow ∧ s'.selectors = s.selectors := by
  unfold SynthState.assignAdvice at h
  split at h
  · simp at h
  · split at h
    · split at h
      · simp only [Except.ok.injEq, Prod.mk.injEq] at h
        rw [← h.2]
        exact ⟨rfl, rfl, rfl⟩
      · simp at h
    · simp only [Except.ok.injEq, Prod.mk.injEq] at h
      rw [← h.2]
      exact ⟨rfl, rfl, rfl⟩

/-- A successful `copyAdvice` prepends exactly the new equality link to the
copy list and keeps the next free row. -/
lemma copyAdvice_ok_copies {F : Type} [DecidableEq F] {s : SynthState F}
    {src : ACell F} {c r : Nat} {cell : ACell F} {s' : SynthState F}
    (h : s.copyAdvice src c r = .ok (cell, s')) :
    s'.copies = (src.cell, (c, r)) :: s.copies ∧ s'.nextRow = s.nextRow := by
  unfold SynthState.copyAdvice at h
  split at h
  · simp at h
  next cell0 s0 heq =>
    simp only [Except.ok.injEq, Prod.mk.injEq] at h
    obtain ⟨-, h2⟩ := h
    have hf := assignAdvice_ok_frame heq
    rw [← h2]
    exact ⟨by rw [hf.1], hf.2.1⟩

/-- If the copy-constraint pass reports no violations, every linked pair of
cells is assigned and the two cells hold the same value. -/
lemma copyViolations_eq_nil {F : Type} [DecidableEq F]
    (adv : Nat → Nat → Option F) :
    ∀ l : List ((Nat × Nat) × (Nat × Nat)), copyViolations adv l = [] →
      ∀ p ∈ l, ∃ v, adv p.1.1 p.1.2 = some v ∧ adv p.2.1 p.2.2 = some v := by
  intro l
  induction l with
  | nil => intro _ p hp; simp at hp
  | cons hd tl ih =>
    intro h p hp
    rw [copyViolations] at h
    have h12 := List.append_eq_nil.mp h
    rcases List.mem_cons.mp hp with rfl | hp'
    · rcases h1 : adv p.1.1 p.1.2 with _ | a
      · rw [h1] at h12; simp at h12
      · rcases h2 : adv p.2.1 p.2.2 with _ | b
        · rw [h1, h2] at h12; simp at h12
        · rw [h1, h2] at h12
          by_cases hab : a = b
          · subst hab; exact ⟨a, rfl, rfl⟩
          · simp [hab] at h12
    · exact ih h12.2 p hp'

/-- C6: `assign_row` copy-links the previous region's `b` and `c` cells into
columns `a` and `b` of the new region (all three advice columns being
equality-enabled by `configure`); in any assignment the checker accepts, each
linked pair of cells resolves to the same value; and asserting an
already-assigned cell with a different value is an `AssignmentConflict`. -/
theorem copy_constraint_propagation (F : Type) [CommRing F] [DecidableEq F] :
    fibConfigure.eqEnabled = fibConfigure.advice ∧
    (∀ (pb pc : ACell F) (s : SynthState F) (out : ACell F) (s' : SynthState F),
       assign_row pb pc s = .ok (out, s') →
       (pb.cell, ((0 : Nat), s.nextRow)) ∈ s'.copies ∧
       (pc.cell, ((1 : Nat), s.nextRow)) ∈ s'.copies) ∧
    (∀ (gates : List (Gate F)) (height : Nat) (s : SynthState F),
       check gates height s = [] →
       ∀ p ∈ s.copies, ∃ v, s.adv p.1.1 p.1.2 = some v ∧
         s.adv p.2.1 p.2.2 = some v) ∧
    (∀ (s : SynthState F) (c r : Nat) (v w : F),
       s.adv c r = some v → w ≠ v →
       s.assignAdvice c r (some w) = .error .AssignmentConflict) := by
  refine ⟨rfl, ?_, ?_, ?_⟩
  · intro pb pc s out s' h
    simp only [assign_row] at h
    split at h
    · simp at h
    next a1 s1 h1 =>
      split at h
      · simp at h
      next a2 s2 h2 =>
        split at h
        · simp at h
        next cc s3 h3 =>
          simp only [Except.ok.injEq, Prod.mk.injEq] at h
          obtain ⟨-, h4⟩ := h
          have hc1 := copyAdvice_ok_copies h1
          have hc2 := copyAdvice_ok_copies h2
          have hf3 := assignAdvice_ok_frame h3
          rw [← h4]
          constructor
          · show _ ∈ s3.copies
            rw [hf3.1, hc2.1, hc1.1]
            exact List.mem_cons_of_mem _ (List.mem_cons_self _ _)
          · show _ ∈ s3.copies
            rw [hf3.1, hc2.1]
            exact List.mem_cons_self _ _
  · intro gates height s hchk
    exact copyViolations_eq_nil s.adv s.copies (List.append_eq_nil.mp hchk).2
  · intro s c r v w hv hw
    unfold SynthState.assignAdvice
    rw [hv]
    exact if_neg (Ne.symm hw)

/-- The table produced by the concrete `assign_row` run used in the witness
below: previous cells `(1,0) ↦ 1` and `(2,0) ↦ 2` copied into row 0's columns
0 and 1, with their sum in column 2 and both copy links recorded. -/
def witnessRowState : SynthState (ZMod 11) :=
  { nextRow := 1, advice := [((2, 0), 3), ((1, 0), 2), ((0, 0), 1)],
    selectors := [(0, 0)], copies := [((2, 0), (1, 0)), ((1, 0), (0, 0))] }

/-- Witness for C6: a concrete `assign_row` run from the empty table records
both copy links, and a concrete conflicting re-assignment errors. -/
theorem copy_constraint_propagation_witness :
    ((((1 : Nat), (0 : Nat)), ((0 : Nat), (0 : Nat))) ∈ witnessRowState.copies ∧
     (((2 : Nat), (0 : Nat)), ((1 : Nat), (0 : Nat))) ∈ witnessRowState.copies) ∧
    (SynthState.mk 0 [((0, 0), (1 : ZMod 11))] [] []).assignAdvice 0 0 (some 2)
      = .error .AssignmentConflict :=
  ⟨(copy_constraint_propagation (ZMod 11)).2.1 ⟨(1, 0), 1⟩ ⟨(2, 0), 2⟩
      (initState (ZMod 11)) ⟨(2, 0), 3⟩ witnessRowState (by decide),
   (copy_constraint_propagation (ZMod 11)).2.2.2
      (SynthState.mk 0 [((0, 0), 1)] [] []) 0 0 1 2 (by decide) (by decide)⟩

/-- C7: `assign_first_row` reports the missing-witness condition
(`Err.Synthesis`, distinct from `Err.AssignmentConflict`) and aborts the
region when either initial witness is absent; with both witnesses present and
the region's row fresh it completes, returning the three assigned cells with
`c`'s value equal to `a + b`. -/
theorem assign_first_row_missing_witness (F : Type) [CommRing F] [DecidableEq F] :
    (∀ (b : Option F) (s : SynthState F),
       assign_first_row none b s = .error .Synthesis) ∧
    (∀ (a : F) (s : SynthState F),
       assign_first_row (some a) none s = .error .Synthesis) ∧
    Err.Synthesis ≠ Err.AssignmentConflict ∧
    (∀ (a b : F) (s : SynthState F),
       s.adv 0 s.nextRow = none → s.adv 1 s.nextRow = none →
       s.adv 2 s.nextRow = none →
       (assign_first_row (some a) (some b) s).map (fun x => x.1) =
         .ok (⟨(0, s.nextRow), a⟩, ⟨(1, s.nextRow), b⟩,
              ⟨(2, s.nextRow), a + b⟩)) := by
  refine ⟨fun _ _ => rfl, fun _ _ => rfl, by decide, ?_⟩
  intro a b s h0 h1 h2
  have ea : (s.enableSelector 0 s.nextRow).assignAdvice 0 s.nextRow (some a)
      = .ok (⟨(0, s.nextRow), a⟩,
             (s.enableSelector 0 s.nextRow).setAdvice 0 s.nextRow a) := by
    unfold SynthState.assignAdvice
    rw [show (s.enableSelector 0 s.nextRow).adv 0 s.nextRow = none from h0]
  have eb : ((s.enableSelector 0 s.nextRow).setAdvice 0 s.nextRow a).assignAdvice
        1 s.nextRow (some b)
      = .ok (⟨(1, s.nextRow), b⟩,
             ((s.enableSelector 0 s.nextRow).setAdvice 0 s.nextRow a).setAdvice
               1 s.nextRow b) := by
    unfold SynthState.assignAdvice
    rw [show ((s.enableSelector 0 s.nextRow).setAdvice 0 s.nextRow a).adv
          1 s.nextRow = none by
      rw [adv_setAdvice, if_neg (by simp)]; exact h1]
  have ec : (((s.enableSelector 0 s.nextRow).setAdvice 0 s.nextRow a).setAdvice
        1 s.nextRow b).assignAdvice 2 s.nextRow (some (a + b))
      = .ok (⟨(2, s.nextRow), a + b⟩,
             (((s.enableSelector 0 s.nextRow).setAdvice 0 s.nextRow a).setAdvice
               1 s.nextRow b).setAdvice 2 s.nextRow (a + b)) := by
    unfold SynthState.assignAdvice
    rw [show (((s.enableSelector 0 s.nextRow).setAdvice 0 s.nextRow a).setAdvice
          1 s.nextRow b).adv 2 s.nextRow = none by
      rw [adv_setAdvice, if_neg (by simp), adv_setAdvice, if_neg (by simp)]
      exact h2]
  simp only [assign_first_row, ea, eb, ec]
  rfl

/-- Witness for C7: with both witnesses `1` present over the empty table, the
first region completes and the returned `c` cell carries `1 + 1`. -/
theorem assign_first_row_missing_witness_w :
    (assign_first_row (some (1 : ZMod 11)) (some 1) (initState (ZMod 11))).map
        (fun x => x.1)
      = .ok (⟨(0, 0), 1⟩, ⟨(1, 0), 1⟩, ⟨(2, 0), 1 + 1⟩) :=
  (assign_first_row_missing_witness (ZMod 11)).2.2.2 1 1 (initState (ZMod 11))
    rfl rfl rfl

end Halo2


